import Mathlib

/-
  Shallow embedding of snektris (src/main.py): the tetromino/grid core.
  Pure rendering, event polling and timing are out of scope; the embedded
  part is the Block/Tetromino/Grid data model, the movement, rotation and
  boundary-correction operations, the merge step and the game-over check
  of the main loop.
-/

namespace Snektris

/-- Grid height constant from main.py (GRID_HEIGHT = 20). -/
def GRID_HEIGHT : Int := 20

/-- Grid width constant from main.py (GRID_WIDTH = 10). -/
def GRID_WIDTH : Int := 10

/-- Spawn reference coordinate from main.py (START_POSITION = 0, 4). -/
def START_POSITION : Int × Int := (0, 4)

/-- Color enum from main.py. -/
inductive Color where
  | LINE_COLOR
  | BACKGROUND
  | RED
  | GREEN
  | BLUE
  | CYAN
  | PURPLE
  | YELLOW
  | ORANGE
deriving DecidableEq, Repr

/-- SingleBlock: one occupied cell, row i, column j, with a color. -/
structure SingleBlock where
  i : Int
  j : Int
  color : Color
deriving DecidableEq, Repr

/-- SingleBlock.coords property: the (i, j) pair. -/
def SingleBlock.coords (b : SingleBlock) : Int × Int := (b.i, b.j)

/-- SingleBlock.step_down: a new block one row lower, same color. -/
def SingleBlock.step_down (b : SingleBlock) : SingleBlock := ⟨b.i + 1, b.j, b.color⟩

/-- SingleBlock.step_left: a new block one column to the left, same color. -/
def SingleBlock.step_left (b : SingleBlock) : SingleBlock := ⟨b.i, b.j - 1, b.color⟩

/-- SingleBlock.step_right: a new block one column to the right, same color. -/
def SingleBlock.step_right (b : SingleBlock) : SingleBlock := ⟨b.i, b.j + 1, b.color⟩

/-- Tetromino state: reference coordinate (i, j), block list, the read-only
occupied-coordinate set it was seeded with, and the `done` (settled) flag. -/
structure Tetromino where
  i : Int
  j : Int
  blocks : List SingleBlock
  other_positions : Finset (Int × Int)
  done : Bool
deriving DecidableEq

/-- The seven shape subclasses of Tetromino in main.py. -/
inductive Variant where
  | LShaped
  | JShaped
  | SShaped
  | TShaped
  | ZShaped
  | IShaped
  | Square
deriving DecidableEq, Repr

/-- Class-level color of each shape subclass. -/
def Variant.color : Variant → Color
  | .LShaped => .BLUE
  | .JShaped => .ORANGE
  | .SShaped => .GREEN
  | .TShaped => .PURPLE
  | .ZShaped => .RED
  | .IShaped => .CYAN
  | .Square => .YELLOW

/-- Class-level initial_coords of each shape subclass. -/
def Variant.initial_coords : Variant → List (Int × Int)
  | .LShaped => [(0, 0), (1, 0), (2, 0), (2, 1)]
  | .JShaped => [(0, 1), (1, 1), (2, 1), (2, 0)]
  | .SShaped => [(0, 0), (1, 0), (1, 1), (2, 1)]
  | .TShaped => [(0, 1), (1, 0), (1, 1), (2, 1)]
  | .ZShaped => [(0, 1), (1, 1), (1, 0), (2, 0)]
  | .IShaped => [(0, 0), (1, 0), (2, 0), (3, 0)]
  | .Square => [(0, 0), (1, 0), (0, 1), (1, 1)]

/-- Class-level center of each shape subclass. The Square class defines no
`center` attribute in main.py (and the base class only annotates it), so
reading it raises AttributeError: modelled as `none`. -/
def Variant.center : Variant → Option (Int × Int)
  | .LShaped => some (1, 0)
  | .JShaped => some (1, 1)
  | .SShaped => some (1, 0)
  | .TShaped => some (1, 1)
  | .ZShaped => some (1, 1)
  | .IShaped => some (1, 0)
  | .Square => none

/-- Tetromino._center_coords: translate the layout so the pivot is the
local origin. -/
def center_coords (coords : List (Int × Int)) (c : Int × Int) : List (Int × Int) :=
  coords.map (fun p => (p.1 - c.1, p.2 - c.2))

/-- Tetromino.__init__: place one block at (i + dr, j + dc) for each pivot
centered offset (dr, dc), in the class color, with done = False. Returns
`none` when the class has no center attribute (the Square case, where the
Python constructor raises AttributeError). -/
def mkTetromino (v : Variant) (i j : Int) (other : Finset (Int × Int)) :
    Option Tetromino :=
  match v.center with
  | none => none
  | some c =>
      some
        { i := i
          j := j
          blocks :=
            (center_coords v.initial_coords c).map
              (fun d => ⟨i + d.1, j + d.2, v.color⟩)
          other_positions := other
          done := false }

/-- Tetromino.step_down from main.py lines 91-103. -/
def Tetromino.step_down (t : Tetromino) : Tetromino :=
  let new_blocks := t.blocks.map SingleBlock.step_down
  if ∃ b ∈ new_blocks, GRID_HEIGHT ≤ b.i then
    { t with done := true }
  else if ∃ b ∈ new_blocks, b.coords ∈ t.other_positions then
    { t with done := true }
  else
    { t with i := t.i + 1, blocks := new_blocks }

/-- Tetromino.step_left from main.py lines 105-115. -/
def Tetromino.step_left (t : Tetromino) : Tetromino :=
  let new_blocks := t.blocks.map SingleBlock.step_left
  if ∃ b ∈ new_blocks, b.j < 0 then
    t
  else if ∃ b ∈ new_blocks, b.coords ∈ t.other_positions then
    t
  else
    { t with j := t.j - 1, blocks := new_blocks }

/-- Tetromino.step_right from main.py lines 117-127. -/
def Tetromino.step_right (t : Tetromino) : Tetromino :=
  let new_blocks := t.blocks.map SingleBlock.step_right
  if ∃ b ∈ new_blocks, GRID_WIDTH - 1 < b.j then
    t
  else if ∃ b ∈ new_blocks, b.coords ∈ t.other_positions then
    t
  else
    { t with j := t.j + 1, blocks := new_blocks }

/-- Minimum of a list of integers; Python min over the (always nonempty)
block list. -/
def listMin : List Int → Int
  | [] => 0
  | x :: xs => xs.foldl min x

/-- Maximum of a list of integers; Python max over the (always nonempty)
block list. -/
def listMax : List Int → Int
  | [] => 0
  | x :: xs => xs.foldl max x

/-- Tetromino._check_boundaries from main.py lines 146-165. -/
def Tetromino.check_boundaries (t : Tetromino) : Tetromino :=
  let min_j := listMin (t.blocks.map SingleBlock.j)
  if min_j < 0 then
    { t with blocks := t.blocks.map (fun b => { b with j := b.j - min_j }) }
  else
    let max_j := listMax (t.blocks.map SingleBlock.j)
    if GRID_WIDTH - 1 < max_j then
      { t with blocks :=
          t.blocks.map (fun b => { b with j := b.j - (1 + max_j - GRID_WIDTH) }) }
    else
      let max_i := listMax (t.blocks.map SingleBlock.i)
      if GRID_HEIGHT - 1 < max_i then
        { t with blocks :=
            t.blocks.map (fun b => { b with i := b.i - (1 + max_i - GRID_HEIGHT) }) }
      else
        t

/-- Tetromino.rotate_clockwise from main.py lines 129-136: each block moves
to (i + jj, j - ii) for its offsets (ii, jj) from the reference, then
boundary correction runs. -/
def Tetromino.rotate_clockwise (t : Tetromino) : Tetromino :=
  Tetromino.check_boundaries
    { t with blocks :=
        t.blocks.map (fun b => ⟨t.i + (b.j - t.j), t.j - (b.i - t.i), b.color⟩) }

/-- Tetromino.rotate_anticlockwise from main.py lines 138-144: each block
moves to (i - jj, j + ii), then boundary correction runs. -/
def Tetromino.rotate_anticlockwise (t : Tetromino) : Tetromino :=
  Tetromino.check_boundaries
    { t with blocks :=
        t.blocks.map (fun b => ⟨t.i - (b.j - t.j), t.j + (b.i - t.i), b.color⟩) }

/-- Grid state: locked blocks (for rendering) and the occupied-position set. -/
structure Grid where
  blocks : List SingleBlock
  positions : Finset (Int × Int)
deriving DecidableEq

/-- Grid.update_blocks from main.py lines 288-291: extend the locked block
list and add every new block coordinate to the position set. -/
def Grid.update_blocks (g : Grid) (new_blocks : List SingleBlock) : Grid :=
  { blocks := g.blocks ++ new_blocks
    positions := new_blocks.foldl (fun ps b => insert b.coords ps) g.positions }

/-- The merge-and-check step of the main loop (main.py lines 342-347): when
the active tetromino is done, merge its blocks into the grid, then report
game over as the boolean test START_POSITION in grid.positions. -/
def merge_and_check (g : Grid) (t : Tetromino) : Grid × Bool :=
  let g2 := g.update_blocks t.blocks
  (g2, decide (START_POSITION ∈ g2.positions))

/-- The class list the main loop samples new pieces from (main.py lines
305-307): Square is absent. -/
def spawn_classes : List Variant :=
  [.SShaped, .TShaped, .ZShaped, .LShaped, .IShaped, .JShaped]

/-- Blocks of a freshly spawned piece of a variant at START_POSITION on an
empty grid (the spawn call of the main loop, line 308), or [] when
construction fails. -/
def spawn_blocks (v : Variant) : List SingleBlock :=
  match mkTetromino v START_POSITION.1 START_POSITION.2 ∅ with
  | some t => t.blocks
  | none => []

/-- Offset rotation map the spec gives for clockwise rotation:
(di, dj) to (dj, -di). -/
def cwMap (d : Int × Int) : Int × Int := (d.2, -d.1)

/-- Offset rotation map the spec gives for anticlockwise rotation:
(di, dj) to (-dj, di). -/
def acwMap (d : Int × Int) : Int × Int := (-d.2, d.1)

/-- A block's offset from the piece's reference coordinate. -/
def blockOffset (t : Tetromino) (b : SingleBlock) : Int × Int :=
  (b.i - t.i, b.j - t.j)

/-- Rebuild a block at reference + offset, keeping its color. -/
def placeAt (t : Tetromino) (b : SingleBlock) (d : Int × Int) : SingleBlock :=
  ⟨t.i + d.1, t.j + d.2, b.color⟩

/-- Membership in the position set produced by folding insertions of block
coordinates. -/
theorem mem_foldl_insert (l : List SingleBlock) (s : Finset (Int × Int)) (x : Int × Int) :
    x ∈ l.foldl (fun ps b => insert b.coords ps) s ↔
      x ∈ s ∨ ∃ b ∈ l, b.coords = x := by
  induction l generalizing s with
  | nil => simp
  | cons b l ih =>
      simp only [List.foldl_cons, ih, Finset.mem_insert, List.mem_cons]
      constructor
      · rintro ((rfl | hs) | ⟨b2, hb2, rfl⟩)
        · exact Or.inr ⟨b, Or.inl rfl, rfl⟩
        · exact Or.inl hs
        · exact Or.inr ⟨b2, Or.inr hb2, rfl⟩
      · rintro (hs | ⟨b2, (rfl | hb2), rfl⟩)
        · exact Or.inl (Or.inr hs)
        · exact Or.inl (Or.inl rfl)
        · exact Or.inr ⟨b2, hb2, rfl⟩

/-- Cardinality of the position set after folding insertions of pairwise
distinct, fresh block coordinates. -/
theorem card_foldl_insert (l : List SingleBlock) (s : Finset (Int × Int))
    (hnd : (l.map SingleBlock.coords).Nodup) (hdisj : ∀ b ∈ l, b.coords ∉ s) :
    (l.foldl (fun ps b => insert b.coords ps) s).card = s.card + l.length := by
  induction l generalizing s with
  | nil => simp
  | cons b l ih =>
      simp only [List.map_cons, List.nodup_cons] at hnd
      simp only [List.foldl_cons, List.length_cons]
      rw [ih _ hnd.2]
      · rw [Finset.card_insert_of_not_mem (hdisj b (List.mem_cons_self b l))]
        omega
      · intro b2 hb2
        simp only [Finset.mem_insert, not_or]
        refine ⟨fun he => hnd.1 ?_, hdisj b2 (List.mem_cons_of_mem _ hb2)⟩
        exact he ▸ List.mem_map_of_mem SingleBlock.coords hb2

/-- The blocks of the boundary-corrected piece depend only on the blocks of
the input piece. -/
theorem check_boundaries_blocks_eq (t s : Tetromino) (h : t.blocks = s.blocks) :
    (t.check_boundaries).blocks = (s.check_boundaries).blocks := by
  simp only [Tetromino.check_boundaries, h]
  split_ifs <;> simp [h]

/-- Boundary correction commutes with setting the done flag: it never reads
or writes the flag. -/
theorem check_boundaries_done (t : Tetromino) :
    Tetromino.check_boundaries { t with done := true } =
      { t.check_boundaries with done := true } := by
  dsimp only [Tetromino.check_boundaries]
  split_ifs <;> rfl

/-- Boundary correction never changes the done flag. -/
theorem check_boundaries_done_eq (t : Tetromino) :
    (t.check_boundaries).done = t.done := by
  dsimp only [Tetromino.check_boundaries]
  split_ifs <;> rfl

/-- C1: for a falling piece, step_down translates each block one row lower;
if any translated row reaches GRID_HEIGHT or any translated coordinate is
occupied, the move is rejected with the done flag set to true and every
block, as well as the reference coordinate, left unchanged; otherwise the
whole block list is replaced by the translated one and the reference row
advances, with no partial commit. -/
theorem stepDown_spec (t : Tetromino) (_hfall : t.done = false) :
    ((∃ b ∈ t.blocks.map SingleBlock.step_down,
        GRID_HEIGHT ≤ b.i ∨ b.coords ∈ t.other_positions) →
      t.step_down = { t with done := true }) ∧
    ((∀ b ∈ t.blocks.map SingleBlock.step_down,
        b.i < GRID_HEIGHT ∧ b.coords ∉ t.other_positions) →
      t.step_down = { t with i := t.i + 1, blocks := t.blocks.map SingleBlock.step_down }) := by
  constructor
  · rintro ⟨b, hb, hcase⟩
    dsimp only [Tetromino.step_down]
    split_ifs with h1 h2
    · rfl
    · rfl
    · exfalso
      rcases hcase with hc | hc
      · exact h1 ⟨b, hb, hc⟩
      · exact h2 ⟨b, hb, hc⟩
  · intro h
    dsimp only [Tetromino.step_down]
    split_ifs with h1 h2
    · exfalso
      rcases h1 with ⟨b, hb, hbi⟩
      exact absurd hbi (not_le.mpr (h b hb).1)
    · exfalso
      rcases h2 with ⟨b, hb, hbo⟩
      exact (h b hb).2 hbo
    · rfl

/-- Concrete piece one row above the floor, used to exercise stepDown_spec. -/
def floorPiece : Tetromino :=
  { i := 19, j := 0, blocks := [⟨19, 0, Color.RED⟩], other_positions := ∅, done := false }

/-- Witness for C1: a piece touching the floor is rejected and settles. -/
theorem stepDown_spec_witness : floorPiece.step_down = { floorPiece with done := true } :=
  (stepDown_spec floorPiece rfl).1 (by decide)

/-- C2: rotate_clockwise maps each block offset (di, dj) from the reference
to (dj, -di) and rotate_anticlockwise to (-dj, di), unconditionally on all
blocks, always followed by boundary correction; the resulting blocks never
depend on the occupied set. -/
theorem rotate_spec (t : Tetromino) :
    t.rotate_clockwise =
      Tetromino.check_boundaries
        { t with blocks := t.blocks.map (fun b => placeAt t b (cwMap (blockOffset t b))) } ∧
    t.rotate_anticlockwise =
      Tetromino.check_boundaries
        { t with blocks := t.blocks.map (fun b => placeAt t b (acwMap (blockOffset t b))) } ∧
    ∀ P : Finset (Int × Int),
      (Tetromino.rotate_clockwise { t with other_positions := P }).blocks =
        (t.rotate_clockwise).blocks ∧
      (Tetromino.rotate_anticlockwise { t with other_positions := P }).blocks =
        (t.rotate_anticlockwise).blocks := by
  refine ⟨?_, ?_, ?_⟩
  · have hf : (fun b : SingleBlock => placeAt t b (cwMap (blockOffset t b))) =
        fun b : SingleBlock =>
          (⟨t.i + (b.j - t.j), t.j - (b.i - t.i), b.color⟩ : SingleBlock) := by
      funext b
      simp [placeAt, cwMap, blockOffset, sub_eq_add_neg]
    rw [hf]
    rfl
  · have hf : (fun b : SingleBlock => placeAt t b (acwMap (blockOffset t b))) =
        fun b : SingleBlock =>
          (⟨t.i - (b.j - t.j), t.j + (b.i - t.i), b.color⟩ : SingleBlock) := by
      funext b
      simp [placeAt, acwMap, blockOffset, sub_eq_add_neg]
    rw [hf]
    rfl
  · intro P
    constructor
    · exact check_boundaries_blocks_eq _ _ rfl
    · exact check_boundaries_blocks_eq _ _ rfl

/-- C3: post-rotation boundary correction corrects at most one axis per
call, in the priority order column-low, column-high, row-high, with
mutually exclusive early returns; the shift is exactly the deficit or
excess, and when no bound is violated no block changes. -/
theorem check_boundaries_spec (t : Tetromino) :
    (listMin (t.blocks.map SingleBlock.j) < 0 →
      t.check_boundaries =
        { t with
          blocks :=
            t.blocks.map
              (fun b => { b with j := b.j - listMin (t.blocks.map SingleBlock.j) }) }) ∧
    (0 ≤ listMin (t.blocks.map SingleBlock.j) ∧
        GRID_WIDTH - 1 < listMax (t.blocks.map SingleBlock.j) →
      t.check_boundaries =
        { t with
          blocks :=
            t.blocks.map
              (fun b =>
                { b with
                  j := b.j - (listMax (t.blocks.map SingleBlock.j) - (GRID_WIDTH - 1)) }) }) ∧
    (0 ≤ listMin (t.blocks.map SingleBlock.j) ∧
        listMax (t.blocks.map SingleBlock.j) ≤ GRID_WIDTH - 1 ∧
        GRID_HEIGHT - 1 < listMax (t.blocks.map SingleBlock.i) →
      t.check_boundaries =
        { t with
          blocks :=
            t.blocks.map
              (fun b =>
                { b with
                  i := b.i - (listMax (t.blocks.map SingleBlock.i) - (GRID_HEIGHT - 1)) }) }) ∧
    (0 ≤ listMin (t.blocks.map SingleBlock.j) ∧
        listMax (t.blocks.map SingleBlock.j) ≤ GRID_WIDTH - 1 ∧
        listMax (t.blocks.map SingleBlock.i) ≤ GRID_HEIGHT - 1 →
      t.check_boundaries = t) := by
  have hw : ∀ M : Int, 1 + M - GRID_WIDTH = M - (GRID_WIDTH - 1) := by
    intro M; ring
  have hh : ∀ M : Int, 1 + M - GRID_HEIGHT = M - (GRID_HEIGHT - 1) := by
    intro M; ring
  refine ⟨?_, ?_, ?_, ?_⟩
  · intro h
    dsimp only [Tetromino.check_boundaries]
    rw [if_pos h]
  · rintro ⟨h0, h1⟩
    dsimp only [Tetromino.check_boundaries]
    rw [if_neg (by omega), if_pos h1, hw]
  · rintro ⟨h0, h1, h2⟩
    dsimp only [Tetromino.check_boundaries]
    rw [if_neg (by omega), if_neg (by omega), if_pos h2, hh]
  · rintro ⟨h0, h1, h2⟩
    dsimp only [Tetromino.check_boundaries]
    rw [if_neg (by omega), if_neg (by omega), if_neg (by omega)]

/-- Concrete piece sticking out past the left wall, used to exercise
check_boundaries_spec. -/
def offLeftPiece : Tetromino :=
  { i := 0, j := 0, blocks := [⟨0, -2, Color.RED⟩, ⟨0, 1, Color.RED⟩],
    other_positions := ∅, done := false }

/-- Witness for C3: a negative minimum column is shifted right by exactly
the deficit. -/
theorem check_boundaries_spec_witness :
    offLeftPiece.check_boundaries =
      { offLeftPiece with
        blocks :=
          offLeftPiece.blocks.map
            (fun b => { b with j := b.j - listMin (offLeftPiece.blocks.map SingleBlock.j) }) } :=
  (check_boundaries_spec offLeftPiece).1 (by decide)

/-- C4: for a falling piece whose blocks are within the column bounds,
step_left and step_right translate each block one column sideways; if any
translated column leaves [0, GRID_WIDTH - 1] or any translated coordinate
is occupied, the call is a silent no-op that changes nothing and never sets
the done flag; otherwise the translated block list is committed. -/
theorem stepSide_spec (t : Tetromino)
    (hcols : ∀ b ∈ t.blocks, 0 ≤ b.j ∧ b.j ≤ GRID_WIDTH - 1) :
    ((∃ b ∈ t.blocks.map SingleBlock.step_left,
        b.j < 0 ∨ GRID_WIDTH - 1 < b.j ∨ b.coords ∈ t.other_positions) →
      t.step_left = t) ∧
    ((∀ b ∈ t.blocks.map SingleBlock.step_left,
        0 ≤ b.j ∧ b.j ≤ GRID_WIDTH - 1 ∧ b.coords ∉ t.other_positions) →
      t.step_left = { t with j := t.j - 1, blocks := t.blocks.map SingleBlock.step_left }) ∧
    ((∃ b ∈ t.blocks.map SingleBlock.step_right,
        b.j < 0 ∨ GRID_WIDTH - 1 < b.j ∨ b.coords ∈ t.other_positions) →
      t.step_right = t) ∧
    ((∀ b ∈ t.blocks.map SingleBlock.step_right,
        0 ≤ b.j ∧ b.j ≤ GRID_WIDTH - 1 ∧ b.coords ∉ t.other_positions) →
      t.step_right = { t with j := t.j + 1, blocks := t.blocks.map SingleBlock.step_right }) ∧
    (t.step_left).done = t.done ∧ (t.step_right).done = t.done := by
  refine ⟨?_, ?_, ?_, ?_, ?_, ?_⟩
  · rintro ⟨b, hb, hcase⟩
    dsimp only [Tetromino.step_left]
    split_ifs with h1 h2
    · rfl
    · rfl
    · exfalso
      rcases hcase with hc | hc | hc
      · exact h1 ⟨b, hb, hc⟩
      · rcases List.mem_map.mp hb with ⟨a, ha, rfl⟩
        have := (hcols a ha).2
        dsimp only [SingleBlock.step_left] at hc
        omega
      · exact h2 ⟨b, hb, hc⟩
  · intro h
    dsimp only [Tetromino.step_left]
    split_ifs with h1 h2
    · exfalso
      rcases h1 with ⟨b, hb, hbj⟩
      have := (h b hb).1
      omega
    · exfalso
      rcases h2 with ⟨b, hb, hbo⟩
      exact (h b hb).2.2 hbo
    · rfl
  · rintro ⟨b, hb, hcase⟩
    dsimp only [Tetromino.step_right]
    split_ifs with h1 h2
    · rfl
    · rfl
    · exfalso
      rcases hcase with hc | hc | hc
      · rcases List.mem_map.mp hb with ⟨a, ha, rfl⟩
        have := (hcols a ha).1
        dsimp only [SingleBlock.step_right] at hc
        omega
      · exact h1 ⟨b, hb, hc⟩
      · exact h2 ⟨b, hb, hc⟩
  · intro h
    dsimp only [Tetromino.step_right]
    split_ifs with h1 h2
    · exfalso
      rcases h1 with ⟨b, hb, hbj⟩
      have := (h b hb).2.1
      omega
    · exfalso
      rcases h2 with ⟨b, hb, hbo⟩
      exact (h b hb).2.2 hbo
    · rfl
  · dsimp only [Tetromino.step_left]
    split_ifs <;> rfl
  · dsimp only [Tetromino.step_right]
    split_ifs <;> rfl

/-- Concrete piece against the left wall, used to exercise stepSide_spec. -/
def wallPiece : Tetromino :=
  { i := 0, j := 0, blocks := [⟨0, 0, Color.RED⟩], other_positions := ∅, done := false }

/-- Witness for C4: stepping left into the wall changes nothing. -/
theorem stepSide_spec_witness : wallPiece.step_left = wallPiece :=
  (stepSide_spec wallPiece (by decide)).1 (by decide)

/-- C5 counterexample piece state: a settled piece one of whose blocks
already overlaps the occupied set (reachable, since rotation performs no
occupied-cell check and a subsequent rejected step_down settles the piece
in place). -/
def overlapGrid : Grid :=
  { blocks := [⟨0, 0, Color.RED⟩], positions := {((0 : Int), (0 : Int))} }

/-- C5 counterexample piece: settled, four distinct blocks, one of them on
the occupied cell (0, 0). -/
def overlapPiece : Tetromino :=
  { i := 0, j := 0
    blocks := [⟨0, 0, Color.GREEN⟩, ⟨0, 1, Color.GREEN⟩, ⟨0, 2, Color.GREEN⟩,
               ⟨0, 3, Color.GREEN⟩]
    other_positions := {((0 : Int), (0 : Int))}
    done := true }

/-- C5 counterexample: merging a settled piece does not always grow the
occupied set by the piece's block count; when a block already overlaps the
occupied set the growth is smaller and the set/list correspondence breaks. -/
theorem update_blocks_overlap_counterexample :
    overlapPiece.done = true ∧ overlapPiece.blocks.length = 4 ∧
    (overlapGrid.update_blocks overlapPiece.blocks).positions.card ≠
      overlapGrid.positions.card + 4 ∧
    (overlapGrid.update_blocks overlapPiece.blocks).blocks.length ≠
      (overlapGrid.update_blocks overlapPiece.blocks).positions.card := by
  decide

/-- C5 (amended): merging a settled piece appends its blocks to the locked
block list and inserts each block coordinate into the occupied set; when
the piece's block coordinates are pairwise distinct and disjoint from the
occupied set (the precondition the caller is assumed to guarantee), the set
grows by exactly the number of blocks (4) and the locked-block list and
occupied set keep equal sizes. -/
theorem update_blocks_spec (g : Grid) (t : Tetromino) (_hdone : t.done = true)
    (hnd : (t.blocks.map SingleBlock.coords).Nodup)
    (hdisj : ∀ b ∈ t.blocks, b.coords ∉ g.positions) :
    (g.update_blocks t.blocks).blocks = g.blocks ++ t.blocks ∧
    (∀ x, x ∈ (g.update_blocks t.blocks).positions ↔
      x ∈ g.positions ∨ ∃ b ∈ t.blocks, b.coords = x) ∧
    (g.update_blocks t.blocks).positions.card = g.positions.card + t.blocks.length ∧
    (t.blocks.length = 4 →
      (g.update_blocks t.blocks).positions.card = g.positions.card + 4) ∧
    (g.blocks.length = g.positions.card →
      (g.update_blocks t.blocks).blocks.length =
        (g.update_blocks t.blocks).positions.card) := by
  have hcard := card_foldl_insert t.blocks g.positions hnd hdisj
  refine ⟨rfl, ?_, hcard, ?_, ?_⟩
  · intro x
    exact mem_foldl_insert t.blocks g.positions x
  · intro h4
    rw [h4] at hcard
    exact hcard
  · intro hlen
    show (g.blocks ++ t.blocks).length =
      (t.blocks.foldl (fun ps b => insert b.coords ps) g.positions).card
    rw [List.length_append, hlen, hcard]

/-- Concrete empty grid used to exercise update_blocks_spec. -/
def emptyGrid : Grid := { blocks := [], positions := ∅ }

/-- Concrete settled square-of-blocks piece used to exercise
update_blocks_spec. -/
def settledSquare : Tetromino :=
  { i := 18, j := 0
    blocks := [⟨18, 0, Color.RED⟩, ⟨19, 0, Color.RED⟩, ⟨18, 1, Color.RED⟩,
               ⟨19, 1, Color.RED⟩]
    other_positions := ∅
    done := true }

/-- Witness for C5 (amended): merging four fresh distinct blocks grows the
occupied set by four. -/
theorem update_blocks_spec_witness :
    (emptyGrid.update_blocks settledSquare.blocks).positions.card =
      emptyGrid.positions.card + settledSquare.blocks.length :=
  (update_blocks_spec emptyGrid settledSquare rfl (by decide) (by decide)).2.2.1

/-- C6: after a settled piece is merged, the loop reports game over exactly
when the fixed spawn coordinate START_POSITION is in the occupied set, as
an ordinary boolean; spelled out, that is when the spawn cell was already
occupied or one of the merged blocks sits on it. -/
theorem game_over_iff (g : Grid) (t : Tetromino) :
    ((merge_and_check g t).2 = true ↔
      START_POSITION ∈ (merge_and_check g t).1.positions) ∧
    ((merge_and_check g t).2 = true ↔
      START_POSITION ∈ g.positions ∨ ∃ b ∈ t.blocks, b.coords = START_POSITION) := by
  constructor
  · simp [merge_and_check]
  · simp [merge_and_check, Grid.update_blocks, mem_foldl_insert]

/-- C7 counterexample: the claimed bound 0 ≤ row already fails at
construction: an IShaped piece spawned at START_POSITION has a block on
row -1. -/
theorem spawn_row_negative : ∃ b ∈ spawn_blocks Variant.IShaped, b.i < 0 := by
  decide

/-- C7 (amended): at construction at the spawn coordinate, every block of
every spawnable variant has its column within [0, GRID_WIDTH) and its row
within [-1, GRID_HEIGHT); the claimed lower bound 0 ≤ row does not hold,
since every variant spawns with a block on row -1, and boundary correction
never fixes rows above the grid. -/
theorem spawn_bounds (v : Variant) (hv : v ∈ spawn_classes) :
    (∀ b ∈ spawn_blocks v, -1 ≤ b.i ∧ b.i < GRID_HEIGHT ∧ 0 ≤ b.j ∧ b.j < GRID_WIDTH) ∧
    ∃ b ∈ spawn_blocks v, b.i = -1 := by
  simp only [spawn_classes, List.mem_cons, List.not_mem_nil, or_false] at hv
  rcases hv with rfl | rfl | rfl | rfl | rfl | rfl <;> exact ⟨by decide, by decide⟩

/-- Witness for C7 (amended): the bounds instantiated for the SShaped
spawn block on row -1. -/
theorem spawn_bounds_witness :
    -1 ≤ (⟨-1, 4, Color.GREEN⟩ : SingleBlock).i ∧
      (⟨-1, 4, Color.GREEN⟩ : SingleBlock).i < GRID_HEIGHT ∧
      0 ≤ (⟨-1, 4, Color.GREEN⟩ : SingleBlock).j ∧
      (⟨-1, 4, Color.GREEN⟩ : SingleBlock).j < GRID_WIDTH :=
  (spawn_bounds Variant.SShaped (by decide)).1 ⟨-1, 4, Color.GREEN⟩ (by decide)

/-- C8 counterexample: the Square subclass defines no center attribute, so
constructing a Square piece fails instead of succeeding. -/
theorem mk_square_fails : mkTetromino Variant.Square 0 4 ∅ = none := rfl

/-- C8 (amended): each of the six shape variants other than Square defines
a fixed layout and a pivot, and construction at any spawn coordinate over
any occupied set is total: it succeeds and produces exactly 4 blocks in the
variant's fixed color, with the reference set to the spawn coordinate and
the settled flag false; the Square variant defines no pivot and its
construction fails. -/
theorem mk_variant_total (v : Variant) (hv : v ≠ Variant.Square) (i j : Int)
    (other : Finset (Int × Int)) :
    ∃ t, mkTetromino v i j other = some t ∧ t.i = i ∧ t.j = j ∧
      t.done = false ∧ t.blocks.length = 4 ∧ ∀ b ∈ t.blocks, b.color = v.color := by
  cases v
  case Square => exact absurd rfl hv
  all_goals
    refine ⟨_, rfl, rfl, rfl, rfl, rfl, ?_⟩
    intro b hb
    rcases List.mem_map.mp hb with ⟨d, _, rfl⟩
    rfl

/-- Witness for C8 (amended): an LShaped piece constructs successfully. -/
theorem mk_variant_total_witness : (mkTetromino Variant.LShaped 0 4 ∅).isSome = true := by
  obtain ⟨t, ht, -⟩ := mk_variant_total Variant.LShaped (by decide) 0 4 ∅
  rw [ht]
  rfl

/-- C9 counterexample: a settled piece is not immutable: step_left on a
settled piece whose leftward move is otherwise legal still moves its
blocks. -/
def settledPiece : Tetromino :=
  { i := 10, j := 5, blocks := [⟨10, 5, Color.RED⟩], other_positions := ∅, done := true }

/-- C9 counterexample: the settled flag does not freeze the piece. -/
theorem settled_piece_mutable :
    settledPiece.done = true ∧ settledPiece.step_left ≠ settledPiece := by
  decide

/-- C9 (amended): the movement and rotation operations never read the
settled flag: a settled piece is moved and rotated exactly as a falling one
(so it is not immutable); the flag itself is never cleared by step_left,
step_right or the rotations. -/
theorem settled_flag_ignored (t : Tetromino) :
    Tetromino.step_down { t with done := true } = { t.step_down with done := true } ∧
    Tetromino.step_left { t with done := true } = { t.step_left with done := true } ∧
    Tetromino.step_right { t with done := true } = { t.step_right with done := true } ∧
    Tetromino.rotate_clockwise { t with done := true } =
      { t.rotate_clockwise with done := true } ∧
    Tetromino.rotate_anticlockwise { t with done := true } =
      { t.rotate_anticlockwise with done := true } ∧
    (t.step_left).done = t.done ∧ (t.step_right).done = t.done ∧
    (t.rotate_clockwise).done = t.done ∧
    (t.rotate_anticlockwise).done = t.done := by
  refine ⟨?_, ?_, ?_, ?_, ?_, ?_, ?_, ?_, ?_⟩
  · dsimp only [Tetromino.step_down]
    split_ifs <;> rfl
  · dsimp only [Tetromino.step_left]
    split_ifs <;> rfl
  · dsimp only [Tetromino.step_right]
    split_ifs <;> rfl
  · have h := check_boundaries_done
      { t with blocks :=
          t.blocks.map (fun b => ⟨t.i + (b.j - t.j), t.j - (b.i - t.i), b.color⟩) }
    exact h
  · have h := check_boundaries_done
      { t with blocks :=
          t.blocks.map (fun b => ⟨t.i - (b.j - t.j), t.j + (b.i - t.i), b.color⟩) }
    exact h
  · dsimp only [Tetromino.step_left]
    split_ifs <;> rfl
  · dsimp only [Tetromino.step_right]
    split_ifs <;> rfl
  · dsimp only [Tetromino.rotate_clockwise]
    exact check_boundaries_done_eq _
  · dsimp only [Tetromino.rotate_anticlockwise]
    exact check_boundaries_done_eq _

/-- C10: the main loop samples new pieces only from the six classes
SShaped, TShaped, ZShaped, LShaped, IShaped and JShaped; Square is not in
the sampled list, and every class the loop can sample constructs
successfully at START_POSITION over any occupied set (so the Square
construction failure is unreachable from the loop). -/
theorem square_never_spawned :
    Variant.Square ∉ spawn_classes ∧
    ∀ v ∈ spawn_classes, ∀ other : Finset (Int × Int),
      (mkTetromino v START_POSITION.1 START_POSITION.2 other).isSome = true := by
  refine ⟨by decide, ?_⟩
  intro v hv other
  simp only [spawn_classes, List.mem_cons, List.not_mem_nil, or_false] at hv
  rcases hv with rfl | rfl | rfl | rfl | rfl | rfl <;> rfl

/-- Witness for C10: the SShaped class, one the loop can sample, constructs
successfully at the spawn coordinate. -/
theorem square_never_spawned_witness :
    (mkTetromino Variant.SShaped 0 4 ∅).isSome = true :=
  square_never_spawned.2 Variant.SShaped (by decide) ∅

end Snektris
